import Mathlib

/-!
Verification of the LibSodium AEAD boundary adapter (`src/LibSodium/c/libsodium.cpp`).

The adapter delegates all cryptographic work to the external AEAD provider
(libsodium's IETF ChaCha20-Poly1305).  The provider's routines
(`sodium_init`, `crypto_aead_chacha20poly1305_ietf_encrypt`,
`crypto_aead_chacha20poly1305_ietf_decrypt`) are not part of this repository,
so they are modelled from the spec as the RFC 8439 IETF ChaCha20-Poly1305
construction.  Bytes are `Nat` in `[0, 256)`, 32-bit words are `Nat` reduced
`% 2 ^ 32`, buffers are `List Nat`.
-/

/-- A 32-bit word, i.e. a natural number reduced modulo `2 ^ 32`. -/
def word32 (n : Nat) : Nat := n % 2 ^ 32

/-- Left rotation of a 32-bit word by `n` bits. -/
def rotl32 (x n : Nat) : Nat := (x <<< n) % 2 ^ 32 ||| x >>> (32 - n)

/-- Little-endian combination of four bytes into a 32-bit word. -/
def le32 (b0 b1 b2 b3 : Nat) : Nat := b0 + b1 * 256 + b2 * 65536 + b3 * 16777216

/-- Serialize a 32-bit word as four little-endian bytes. -/
def word32ToBytes (w : Nat) : List Nat :=
  [w % 256, w / 256 % 256, w / 65536 % 256, w / 16777216 % 256]

/-- Group a byte list into little-endian 32-bit words, four bytes at a time. -/
def bytesToWords : List Nat → List Nat
  | b0 :: b1 :: b2 :: b3 :: rest => le32 b0 b1 b2 b3 :: bytesToWords rest
  | _ => []

/-- Interpret a byte list as a little-endian natural number. -/
def leBytesToNat : List Nat → Nat
  | [] => 0
  | b :: rest => b + 256 * leBytesToNat rest

/-- Serialize the low `k` bytes of a natural number, little-endian. -/
def natToLeBytes : Nat → Nat → List Nat
  | 0, _ => []
  | k + 1, n => n % 256 :: natToLeBytes k (n / 256)

/-- Modelled from the spec: the 16-word ChaCha20 working state of the AEAD
provider (RFC 8439 section 2.3), absent from this repository. -/
structure ChaChaState where
  x0 : Nat
  x1 : Nat
  x2 : Nat
  x3 : Nat
  x4 : Nat
  x5 : Nat
  x6 : Nat
  x7 : Nat
  x8 : Nat
  x9 : Nat
  x10 : Nat
  x11 : Nat
  x12 : Nat
  x13 : Nat
  x14 : Nat
  x15 : Nat

/-- Modelled from the spec: the ChaCha20 quarter round (RFC 8439 section 2.1). -/
def quarterRound (a b c d : Nat) : Nat × Nat × Nat × Nat :=
  let a := word32 (a + b)
  let d := rotl32 (d ^^^ a) 16
  let c := word32 (c + d)
  let b := rotl32 (b ^^^ c) 12
  let a := word32 (a + b)
  let d := rotl32 (d ^^^ a) 8
  let c := word32 (c + d)
  let b := rotl32 (b ^^^ c) 7
  (a, b, c, d)

/-- Modelled from the spec: the four column quarter rounds of a ChaCha20
double round. -/
def columnRound (s : ChaChaState) : ChaChaState :=
  let (a0, b0, c0, d0) := quarterRound s.x0 s.x4 s.x8 s.x12
  let (a1, b1, c1, d1) := quarterRound s.x1 s.x5 s.x9 s.x13
  let (a2, b2, c2, d2) := quarterRound s.x2 s.x6 s.x10 s.x14
  let (a3, b3, c3, d3) := quarterRound s.x3 s.x7 s.x11 s.x15
  ⟨a0, a1, a2, a3, b0, b1, b2, b3, c0, c1, c2, c3, d0, d1, d2, d3⟩

/-- Modelled from the spec: the four diagonal quarter rounds of a ChaCha20
double round. -/
def diagonalRound (s : ChaChaState) : ChaChaState :=
  let (a0, b0, c0, d0) := quarterRound s.x0 s.x5 s.x10 s.x15
  let (a1, b1, c1, d1) := quarterRound s.x1 s.x6 s.x11 s.x12
  let (a2, b2, c2, d2) := quarterRound s.x2 s.x7 s.x8 s.x13
  let (a3, b3, c3, d3) := quarterRound s.x3 s.x4 s.x9 s.x14
  ⟨a0, a1, a2, a3, b3, b0, b1, b2, c2, c3, c0, c1, d1, d2, d3, d0⟩

/-- Modelled from the spec: `n` ChaCha20 double rounds. -/
def chachaRounds : Nat → ChaChaState → ChaChaState
  | 0, s => s
  | n + 1, s => chachaRounds n (diagonalRound (columnRound s))

/-- Componentwise 32-bit addition of two ChaCha20 states. -/
def ChaChaState.add (s t : ChaChaState) : ChaChaState :=
  ⟨word32 (s.x0 + t.x0), word32 (s.x1 + t.x1), word32 (s.x2 + t.x2),
   word32 (s.x3 + t.x3), word32 (s.x4 + t.x4), word32 (s.x5 + t.x5),
   word32 (s.x6 + t.x6), word32 (s.x7 + t.x7), word32 (s.x8 + t.x8),
   word32 (s.x9 + t.x9), word32 (s.x10 + t.x10), word32 (s.x11 + t.x11),
   word32 (s.x12 + t.x12), word32 (s.x13 + t.x13), word32 (s.x14 + t.x14),
   word32 (s.x15 + t.x15)⟩

/-- Serialize a ChaCha20 state as 64 little-endian bytes. -/
def ChaChaState.toBytes (s : ChaChaState) : List Nat :=
  word32ToBytes s.x0 ++ word32ToBytes s.x1 ++ word32ToBytes s.x2 ++
  word32ToBytes s.x3 ++ word32ToBytes s.x4 ++ word32ToBytes s.x5 ++
  word32ToBytes s.x6 ++ word32ToBytes s.x7 ++ word32ToBytes s.x8 ++
  word32ToBytes s.x9 ++ word32ToBytes s.x10 ++ word32ToBytes s.x11 ++
  word32ToBytes s.x12 ++ word32ToBytes s.x13 ++ word32ToBytes s.x14 ++
  word32ToBytes s.x15

/-- Modelled from the spec: the ChaCha20 block function (RFC 8439 section
2.3) of the AEAD provider, for a 32-byte key, 12-byte nonce and 32-bit block
counter; produces 64 keystream bytes. -/
def chacha20Block (key nonce : List Nat) (counter : Nat) : List Nat :=
  let k := bytesToWords key
  let n := bytesToWords nonce
  let s : ChaChaState :=
    ⟨0x61707865, 0x3320646e, 0x79622d32, 0x6b206574,
     k.getD 0 0, k.getD 1 0, k.getD 2 0, k.getD 3 0,
     k.getD 4 0, k.getD 5 0, k.getD 6 0, k.getD 7 0,
     word32 counter, n.getD 0 0, n.getD 1 0, n.getD 2 0⟩
  (s.add (chachaRounds 10 s)).toBytes

/-- Concatenation of `n` consecutive ChaCha20 keystream blocks starting at a
given counter. -/
def chacha20Blocks (key nonce : List Nat) (counter : Nat) : Nat → List Nat
  | 0 => []
  | n + 1 => chacha20Block key nonce counter ++ chacha20Blocks key nonce (counter + 1) n

/-- Modelled from the spec: `len` bytes of ChaCha20 keystream starting at
block `counter` (RFC 8439 section 2.4). -/
def chacha20Keystream (key nonce : List Nat) (counter len : Nat) : List Nat :=
  (chacha20Blocks key nonce counter ((len + 63) / 64)).take len

/-- Modelled from the spec: clamping of the Poly1305 `r` key part
(RFC 8439 section 2.5). -/
def poly1305Clamp (r : Nat) : Nat := r &&& 0x0ffffffc0ffffffc0ffffffc0fffffff

/-- Split a byte list into chunks of at most 16 bytes. -/
def chunks16 (l : List Nat) : List (List Nat) :=
  match l with
  | [] => []
  | x :: xs => ((x :: xs).take 16) :: chunks16 ((x :: xs).drop 16)
termination_by l.length
decreasing_by simp [List.length_drop]; omega

/-- Modelled from the spec: the Poly1305 one-time authenticator
(RFC 8439 section 2.5) of the AEAD provider; 32-byte key, 16-byte tag. -/
def poly1305 (key msg : List Nat) : List Nat :=
  let r := poly1305Clamp (leBytesToNat (key.take 16))
  let s := leBytesToNat ((key.drop 16).take 16)
  let p := 2 ^ 130 - 5
  let a := (chunks16 msg).foldl
    (fun acc c => (acc + leBytesToNat (c ++ [1])) * r % p) 0
  natToLeBytes 16 (a + s)

/-- Zero padding up to the next 16-byte boundary (RFC 8439 section 2.8). -/
def pad16 (l : List Nat) : List Nat := List.replicate ((16 - l.length % 16) % 16) 0

/-- Modelled from the spec: the byte string authenticated by the AEAD
construction — associated data and ciphertext, each zero-padded to a 16-byte
boundary, followed by their 64-bit little-endian lengths (RFC 8439
section 2.8). -/
def aeadMacData (ad ct : List Nat) : List Nat :=
  ad ++ pad16 ad ++ ct ++ pad16 ct ++
  natToLeBytes 8 ad.length ++ natToLeBytes 8 ct.length

/-- Modelled from the spec: the provider's authenticated encryption routine
`crypto_aead_chacha20poly1305_ietf_encrypt` (RFC 8439 section 2.8): the
Poly1305 key is the first 32 bytes of keystream block 0, the message is
XORed with keystream starting at block 1, and the 16-byte tag over the
associated data and ciphertext is appended. -/
def aead_encrypt (key nonce msg ad : List Nat) : List Nat :=
  let otk := (chacha20Block key nonce 0).take 32
  let ct := List.zipWith Nat.xor msg (chacha20Keystream key nonce 1 msg.length)
  ct ++ poly1305 otk (aeadMacData ad ct)

/-- Modelled from the spec: the provider's verified decryption routine
`crypto_aead_chacha20poly1305_ietf_decrypt`: it recomputes the tag over the
associated data and the ciphertext minus its trailing 16-byte tag, compares,
and only on a match decrypts; on mismatch (or undersized input) it releases
no plaintext. -/
def aead_decrypt (key nonce ct ad : List Nat) : Option (List Nat) :=
  if ct.length < 16 then none
  else
    let body := ct.take (ct.length - 16)
    let tag := ct.drop (ct.length - 16)
    let otk := (chacha20Block key nonce 0).take 32
    if poly1305 otk (aeadMacData ad body) = tag then
      some (List.zipWith Nat.xor body (chacha20Keystream key nonce 1 body.length))
    else none

/-! ## The boundary adapter (`src/LibSodium/c/libsodium.cpp`) -/

/-- `my_add` from the source: C `uint32_t` addition of two 32-bit unsigned
integers, which wraps modulo `2 ^ 32`. -/
def my_add (a b : Nat) : Nat := (a + b) % 2 ^ 32

/-- Result of an adapter call: the returned C `int` status, and the output
buffer contents paired with the reported output length; `none` means the
call returned before the provider wrote anything to the outputs. -/
structure CallResult where
  status : Int
  out : Option (List Nat × Nat)
deriving DecidableEq

/-- Modelled from the spec: libsodium's
`crypto_aead_chacha20poly1305_ietf_KEYBYTES` constant (32), absent from
this repository. -/
def crypto_aead_chacha20poly1305_ietf_KEYBYTES : Nat := 32

/-- Modelled from the spec: libsodium's
`crypto_aead_chacha20poly1305_ietf_NPUBBYTES` constant (12), absent from
this repository. -/
def crypto_aead_chacha20poly1305_ietf_NPUBBYTES : Nat := 12

/-- Modelled from the spec: libsodium's
`crypto_aead_chacha20poly1305_ietf_ABYTES` constant (16), absent from
this repository. -/
def crypto_aead_chacha20poly1305_ietf_ABYTES : Nat := 16

/-- `chacha20_poly1305_keybytes` from the source: returns the provider's
key-length constant. -/
def chacha20_poly1305_keybytes : Nat := crypto_aead_chacha20poly1305_ietf_KEYBYTES

/-- `chacha20_poly1305_noncebytes` from the source: returns the provider's
nonce-length constant. -/
def chacha20_poly1305_noncebytes : Nat := crypto_aead_chacha20poly1305_ietf_NPUBBYTES

/-- `chacha20_poly1305_abytes` from the source: returns the provider's
authentication-tag-length constant. -/
def chacha20_poly1305_abytes : Nat := crypto_aead_chacha20poly1305_ietf_ABYTES

/-- `chacha20_poly1305_encrypt` from the source: if `sodium_init()` reports
failure the call returns `-1` without touching the outputs; otherwise it
returns the provider's encryption routine's status (`0`), the provider
having written the ciphertext and its length.  `sodiumInitOk` abstracts the
outcome of `sodium_init()`, which depends on the environment and is not
computed by this repository. -/
def chacha20_poly1305_encrypt (sodiumInitOk : Bool)
    (message ad nonce key : List Nat) : CallResult :=
  if !sodiumInitOk then ⟨-1, none⟩
  else
    let ct := aead_encrypt key nonce message ad
    ⟨0, some (ct, ct.length)⟩

/-- `chacha20_poly1305_decrypt` from the source: if `sodium_init()` reports
failure the call returns `-1` without touching the outputs; otherwise it
returns the provider's verified-decryption status — `0` with the plaintext
and its length on tag match, `-1` with no plaintext on mismatch. -/
def chacha20_poly1305_decrypt (sodiumInitOk : Bool)
    (ciphertext ad nonce key : List Nat) : CallResult :=
  if !sodiumInitOk then ⟨-1, none⟩
  else
    match aead_decrypt key nonce ciphertext ad with
    | some m => ⟨0, some (m, m.length)⟩
    | none => ⟨-1, none⟩

/-! ## Supporting lemmas -/

theorem toBytes_length (s : ChaChaState) : s.toBytes.length = 64 := by
  simp [ChaChaState.toBytes, word32ToBytes]

theorem chacha20Block_length (key nonce : List Nat) (counter : Nat) :
    (chacha20Block key nonce counter).length = 64 :=
  toBytes_length _

theorem chacha20Blocks_length (key nonce : List Nat) :
    ∀ n counter, (chacha20Blocks key nonce counter n).length = 64 * n := by
  intro n
  induction n with
  | zero => intro counter; rfl
  | succ n ih =>
    intro counter
    simp [chacha20Blocks, chacha20Block_length, ih (counter + 1)]
    ring

theorem chacha20Keystream_length (key nonce : List Nat) (counter len : Nat) :
    (chacha20Keystream key nonce counter len).length = len := by
  have hd := Nat.div_add_mod (len + 63) 64
  have hm : (len + 63) % 64 < 64 := Nat.mod_lt _ (by omega)
  simp only [chacha20Keystream, List.length_take, chacha20Blocks_length]
  omega

theorem natToLeBytes_length : ∀ k n, (natToLeBytes k n).length = k := by
  intro k
  induction k with
  | zero => intro n; rfl
  | succ k ih => intro n; simp [natToLeBytes, ih]

theorem poly1305_length (key msg : List Nat) : (poly1305 key msg).length = 16 := by
  simp [poly1305, natToLeBytes_length]

theorem zipWith_xor_cancel :
    ∀ (m k : List Nat), k.length = m.length →
      List.zipWith Nat.xor (List.zipWith Nat.xor m k) k = m := by
  intro m
  induction m with
  | nil => intro k _; simp
  | cons a m ih =>
    intro k h
    cases k with
    | nil => simp at h
    | cons b k =>
      simp only [List.zipWith]
      rw [ih k (by simpa using h)]
      have hx : Nat.xor (Nat.xor a b) b = a := by
        show a ^^^ b ^^^ b = a
        simp [Nat.xor_assoc]
      rw [hx]

theorem aead_encrypt_length (key nonce msg ad : List Nat) :
    (aead_encrypt key nonce msg ad).length = msg.length + 16 := by
  simp [aead_encrypt, List.length_zipWith, chacha20Keystream_length, poly1305_length]

theorem aead_decrypt_encrypt (key nonce msg ad : List Nat) :
    aead_decrypt key nonce (aead_encrypt key nonce msg ad) ad = some msg := by
  have hks : (chacha20Keystream key nonce 1 msg.length).length = msg.length :=
    chacha20Keystream_length key nonce 1 msg.length
  have hct : (List.zipWith Nat.xor msg (chacha20Keystream key nonce 1 msg.length)).length
      = msg.length := by
    simp [List.length_zipWith, hks]
  have hE : (aead_encrypt key nonce msg ad).length = msg.length + 16 :=
    aead_encrypt_length key nonce msg ad
  simp only [aead_decrypt, hE]
  rw [if_neg (by omega)]
  simp only [aead_encrypt, Nat.add_sub_cancel]
  rw [List.take_left' hct, List.drop_left' hct, if_pos rfl, hct]
  exact congrArg some (zipWith_xor_cancel msg _ hks)

/-! ## Claim theorems -/

/-- C1: for every valid key of length KeyBytes and nonce of length
NonceBytes, and every plaintext and associated data, decrypting the
adapter's encryption result with the same key, nonce and associated data
succeeds (status 0) and returns the original plaintext. -/
theorem C1_encrypt_decrypt_roundtrip (message ad nonce key : List Nat)
    (hkey : key.length = chacha20_poly1305_keybytes)
    (hnonce : nonce.length = chacha20_poly1305_noncebytes) :
    ∃ ct : List Nat,
      (chacha20_poly1305_encrypt true message ad nonce key).out
        = some (ct, ct.length) ∧
      chacha20_poly1305_decrypt true ct ad nonce key
        = ⟨0, some (message, message.length)⟩ := by
  refine ⟨aead_encrypt key nonce message ad, ?_, ?_⟩
  · simp [chacha20_poly1305_encrypt]
  · simp [chacha20_poly1305_decrypt, aead_decrypt_encrypt]

/-- C1 witness: the round-trip theorem applied to a concrete 32-byte key,
12-byte nonce, 5-byte plaintext and 1-byte associated data. -/
theorem C1_encrypt_decrypt_roundtrip_witness :
    (List.replicate 32 7).length = chacha20_poly1305_keybytes ∧
    (List.replicate 12 3).length = chacha20_poly1305_noncebytes ∧
    ∃ ct : List Nat,
      (chacha20_poly1305_encrypt true [104, 101, 108, 108, 111] [42]
        (List.replicate 12 3) (List.replicate 32 7)).out = some (ct, ct.length) ∧
      chacha20_poly1305_decrypt true ct [42] (List.replicate 12 3)
        (List.replicate 32 7)
        = ⟨0, some ([104, 101, 108, 108, 111], [104, 101, 108, 108, 111].length)⟩ :=
  ⟨by decide, by decide,
   C1_encrypt_decrypt_roundtrip [104, 101, 108, 108, 111] [42]
     (List.replicate 12 3) (List.replicate 32 7) (by decide) (by decide)⟩

/-- C3: for every plaintext encrypted with a valid key and nonce, the
ciphertext written by Encrypt, and the length it reports, are exactly the
plaintext length plus the fixed 16-byte tag length. -/
theorem C3_ciphertext_length (message ad nonce key : List Nat)
    (hkey : key.length = chacha20_poly1305_keybytes)
    (hnonce : nonce.length = chacha20_poly1305_noncebytes) :
    ∃ ct : List Nat,
      (chacha20_poly1305_encrypt true message ad nonce key).out
        = some (ct, message.length + chacha20_poly1305_abytes) ∧
      ct.length = message.length + chacha20_poly1305_abytes := by
  refine ⟨aead_encrypt key nonce message ad, ?_, ?_⟩ <;>
    simp [chacha20_poly1305_encrypt, aead_encrypt_length, chacha20_poly1305_abytes,
      crypto_aead_chacha20poly1305_ietf_ABYTES]

/-- C3 witness: the length theorem applied to a concrete 2-byte plaintext
with a concrete 32-byte key and 12-byte nonce. -/
theorem C3_ciphertext_length_witness :
    (List.replicate 32 1).length = chacha20_poly1305_keybytes ∧
    (List.replicate 12 2).length = chacha20_poly1305_noncebytes ∧
    ∃ ct : List Nat,
      (chacha20_poly1305_encrypt true [9, 9] [] (List.replicate 12 2)
        (List.replicate 32 1)).out
        = some (ct, [9, 9].length + chacha20_poly1305_abytes) ∧
      ct.length = [9, 9].length + chacha20_poly1305_abytes :=
  ⟨by decide, by decide,
   C3_ciphertext_length [9, 9] [] (List.replicate 12 2) (List.replicate 32 1)
     (by decide) (by decide)⟩

/-- C4: Decrypt either fails atomically — status -1 with the output buffer
and output length untouched — or succeeds with status 0, releasing exactly
the plaintext verified by the provider; a failing call never exposes any
(partial) plaintext as a success. -/
theorem C4_decrypt_atomic_failure (sodiumInitOk : Bool)
    (ciphertext ad nonce key : List Nat) :
    chacha20_poly1305_decrypt sodiumInitOk ciphertext ad nonce key = ⟨-1, none⟩ ∨
    ∃ m : List Nat, aead_decrypt key nonce ciphertext ad = some m ∧
      chacha20_poly1305_decrypt sodiumInitOk ciphertext ad nonce key
        = ⟨0, some (m, m.length)⟩ := by
  cases sodiumInitOk with
  | false => left; rfl
  | true =>
    cases h : aead_decrypt key nonce ciphertext ad with
    | none => left; simp [chacha20_poly1305_decrypt, h]
    | some m => right; exact ⟨m, rfl, by simp [chacha20_poly1305_decrypt, h]⟩

/-- C5: the three accessors are pure constants: keyBytes is always 32,
nonceBytes is always 12, tagBytes is always 16. -/
theorem C5_accessor_constants :
    chacha20_poly1305_keybytes = 32 ∧ chacha20_poly1305_noncebytes = 12 ∧
    chacha20_poly1305_abytes = 16 :=
  ⟨rfl, rfl, rfl⟩

/-- C6: when the provider's initialization fails, Encrypt and Decrypt both
return status -1 without writing anything to their output buffers or output
lengths. -/
theorem C6_init_failure_untouched (message ad nonce key ciphertext : List Nat) :
    chacha20_poly1305_encrypt false message ad nonce key = ⟨-1, none⟩ ∧
    chacha20_poly1305_decrypt false ciphertext ad nonce key = ⟨-1, none⟩ :=
  ⟨rfl, rfl⟩

/-- C7: Encrypt is deterministic — any two calls with identical initialization
outcome, key, nonce, plaintext and associated data produce identical results
(same status, same ciphertext bytes, same reported length). -/
theorem C7_encrypt_deterministic (sodiumInitOk : Bool)
    (message ad nonce key : List Nat) (r1 r2 : CallResult)
    (h1 : r1 = chacha20_poly1305_encrypt sodiumInitOk message ad nonce key)
    (h2 : r2 = chacha20_poly1305_encrypt sodiumInitOk message ad nonce key) :
    r1 = r2 :=
  h1.trans h2.symm

/-- C7 witness: two calls of Encrypt on the same concrete arguments agree. -/
theorem C7_encrypt_deterministic_witness :
    chacha20_poly1305_encrypt true [1, 2, 3] [4] (List.replicate 12 0)
        (List.replicate 32 0)
      = chacha20_poly1305_encrypt true [1, 2, 3] [4] (List.replicate 12 0)
        (List.replicate 32 0) :=
  C7_encrypt_deterministic true [1, 2, 3] [4] (List.replicate 12 0)
    (List.replicate 32 0)
    (chacha20_poly1305_encrypt true [1, 2, 3] [4] (List.replicate 12 0)
      (List.replicate 32 0))
    (chacha20_poly1305_encrypt true [1, 2, 3] [4] (List.replicate 12 0)
      (List.replicate 32 0))
    rfl rfl

/-- C9: the adapter validates nothing itself: Encrypt's status is exactly the
initialization check's value (0 when initialization succeeds, since the
provider's encryption routine returns 0), Decrypt's status is exactly the
initialization check's or the provider's value, and both statuses are always
either 0 or -1 — no third (InvalidArgument) status exists at this boundary. -/
theorem C9_status_passthrough (sodiumInitOk : Bool)
    (message ad nonce key ciphertext : List Nat) :
    (chacha20_poly1305_encrypt sodiumInitOk message ad nonce key).status
      = (if sodiumInitOk then 0 else -1) ∧
    (chacha20_poly1305_decrypt sodiumInitOk ciphertext ad nonce key).status
      = (if sodiumInitOk then
          (match aead_decrypt key nonce ciphertext ad with
           | some _ => (0 : Int)
           | none => -1)
         else -1) ∧
    ((chacha20_poly1305_decrypt sodiumInitOk ciphertext ad nonce key).status = 0 ∨
     (chacha20_poly1305_decrypt sodiumInitOk ciphertext ad nonce key).status = -1) := by
  refine ⟨?_, ?_, ?_⟩
  · cases sodiumInitOk <;> rfl
  · cases sodiumInitOk with
    | false => rfl
    | true =>
      cases h : aead_decrypt key nonce ciphertext ad <;>
        simp [chacha20_poly1305_decrypt, h]
  · cases sodiumInitOk with
    | false => right; rfl
    | true =>
      cases h : aead_decrypt key nonce ciphertext ad with
      | none => right; simp [chacha20_poly1305_decrypt, h]
      | some m => left; simp [chacha20_poly1305_decrypt, h]

/-- C10: the smoke-test stub my_add returns the sum of its two 32-bit
arguments modulo 2 ^ 32, wrapping on overflow, and its result is again a
32-bit value. -/
theorem C10_my_add_wraps (a b : Nat) (ha : a < 2 ^ 32) (hb : b < 2 ^ 32) :
    my_add a b = (a + b) % 2 ^ 32 ∧ my_add a b < 2 ^ 32 :=
  ⟨rfl, Nat.mod_lt _ (by norm_num)⟩

/-- C10 witness: at the maximal 32-bit operands the sum wraps to 0. -/
theorem C10_my_add_wraps_witness :
    4294967295 < 2 ^ 32 ∧ 1 < 2 ^ 32 ∧
    (my_add 4294967295 1 = (4294967295 + 1) % 2 ^ 32 ∧
      my_add 4294967295 1 < 2 ^ 32) ∧
    my_add 4294967295 1 = 0 :=
  ⟨by decide, by decide,
   C10_my_add_wraps 4294967295 1 (by decide) (by decide), by decide⟩
